import Mathlib

/-!
Verification development for the mbta-map shape renderer
(src/shape_parser/line.py, parse.py, shape_tools.py).

Python floats are modelled as exact rationals; Python `complex` points as
pairs of rationals.  Fallible code (dictionary lookups, list indexing,
assertions in library calls) is modelled in `Except Err`.
-/

namespace MbtaMap

/-- A planar point: model of a Python `complex` value (re, im). -/
abbrev Pt : Type := ℚ × ℚ

/-- Model of `svgpathtools.Line`: a straight segment with a start point and an
end point.  (`end` is a reserved word in Lean, so the field is named `stop`.) -/
structure Seg where
  start : Pt
  stop : Pt
deriving DecidableEq, Repr

/-- Model of `svgpathtools.Path`: an ordered list of segments. -/
abbrev Path : Type := List Seg

/-- Model of `svgpathtools.Line.point(t) = start + t*(end - start)`. -/
def segPoint (seg : Seg) (t : ℚ) : Pt :=
  (seg.start.1 + t * (seg.stop.1 - seg.start.1),
   seg.start.2 + t * (seg.stop.2 - seg.start.2))

/-- Exact rational square root: `some r` with `r*r = q`, `0 ≤ r`, when such a
rational exists, else `none`.  (A rational in lowest terms has a rational
square root exactly when numerator and denominator are perfect squares.) -/
def ratSqrt (q : ℚ) : Option ℚ :=
  if q.num < 0 then none
  else
    let n := q.num.toNat
    let sn := Nat.sqrt n
    let sd := Nat.sqrt q.den
    if sn * sn = n ∧ sd * sd = q.den then some ((sn : ℚ) / (sd : ℚ)) else none

/-- Model of `svgpathtools.Line.normal(t) = -1j * (end-start)/|end-start|`
(the parameter `t` is unused for straight lines): the direction vector rotated
by -90 degrees and scaled to unit length.  The length `|end-start|` is
represented exactly when it is rational (every concrete segment in this file is
axis-aligned, where this is exact); when the length is irrational the
unnormalised perpendicular is used.  No theorem below depends on the value
returned here — only on which samples exist and how they are connected. -/
def segNormal (seg : Seg) : Pt :=
  let dx := seg.stop.1 - seg.start.1
  let dy := seg.stop.2 - seg.start.2
  match ratSqrt (dx * dx + dy * dy) with
  | some len => (dy / len, -dx / len)
  | none => (dy, -dx)

/-- Exceptions raised by the modelled Python code. -/
inductive Err where
  | assertionError
  | indexError
  | keyError
deriving DecidableEq, Repr

/-- Model of `svgpathtools.Path.iscontinuous`: every segment's end point equals
the next segment's start point. -/
def iscontinuous (p : Path) : Bool :=
  (p.zip p.tail).all (fun s => decide (s.1.stop = s.2.start))

/-- Model of `svgpathtools.Path.isclosed`: asserts the path is nonempty, then
returns whether the path is continuous and its start point (first segment's
start) equals its end point (last segment's end).  On an empty path the
library raises (the nonemptiness assertion fails; older library versions raise
IndexError from the `start` property instead — either way an exception). -/
def isclosed : Path → Except Err Bool
  | [] => .error .assertionError
  | s :: rest =>
    .ok (iscontinuous (s :: rest) && decide (s.start = (rest.getLastD s).stop))

/-- The displaced samples one segment contributes in `offset_curve`
(line.py 117-127): for `k` in `range(steps)`, at `t = k/steps`, skip the
iteration when the segment is degenerate (`seg.start == seg.end`), otherwise
emit `Line(seg.point(t), seg.point(t) + offset_distance * seg.normal(t))`. -/
def segSamples (offset_distance : ℚ) (steps : ℕ) (seg : Seg) : List Seg :=
  (List.range steps).filterMap (fun (k : ℕ) =>
    if seg.start = seg.stop then none
    else
      let t : ℚ := (k : ℚ) / (steps : ℚ)
      let p := segPoint seg t
      let nv := segNormal seg
      some ⟨p, (p.1 + offset_distance * nv.1, p.2 + offset_distance * nv.2)⟩)

/-- The full list `nls` built by the nested loop of `offset_curve`
(line.py 116-127): samples of every segment of the path, in order. -/
def offsetNls (path : Path) (offset_distance : ℚ) (steps : ℕ) : List Seg :=
  path.flatMap (segSamples offset_distance steps)

/-- The `connect_the_dots` list of `offset_curve` (line.py 128-131):
`Line(nls[k].end, nls[k+1].end)` for `k` in `range(len(nls)-1)`. -/
def connectDots (nls : List Seg) : List Seg :=
  (nls.zip nls.tail).map (fun ab => ⟨ab.1.stop, ab.2.stop⟩)

/-- Model of `Line.offset_curve` (line.py 107-135), identical to
`shape_tools.offset_curve`: build the displaced samples `nls`, connect
consecutive sample end points, and when the input path is closed also connect
`nls[-1].end` back to `nls[0].end` (`nls[-1]` raises IndexError when `nls` is
empty; `path.isclosed()` raises on an empty path). -/
def offset_curve (path : Path) (offset_distance : ℚ) (steps : ℕ := 10) :
    Except Err Path :=
  let nls := offsetNls path offset_distance steps
  let connect_the_dots := connectDots nls
  match isclosed path with
  | .error e => .error e
  | .ok true =>
    match nls.getLast?, nls.head? with
    | some lastNl, some headNl =>
      .ok (connect_the_dots ++ [⟨lastNl.stop, headNl.stop⟩])
    | _, _ => .error .indexError
  | .ok false => .ok connect_the_dots

/-- The per-mode style constants carried by the `Line` class and its
subclasses (line.py): stroke width, opacity, and whether offsetting applies. -/
structure LineStyle where
  line_width : ℚ
  opacity : ℚ
  offset_curves : Bool
deriving DecidableEq, Repr

/-- `class LightRail(Line)`: line_width 0.25, opacity 0.5, offset_curves True. -/
def LightRail : LineStyle := ⟨0.25, 0.5, true⟩

/-- `class Subway(Line)`: line_width 0.5, opacity 0.7, offset_curves True. -/
def Subway : LineStyle := ⟨0.5, 0.7, true⟩

/-- `class Rail(Line)`: line_width 0.5, opacity 0.5 (offset_curves stays at the
base-class default False); its `render` override is modelled by `Rail_render`. -/
def Rail : LineStyle := ⟨0.5, 0.5, false⟩

/-- `class Bus(Line)`: line_width 0.1, opacity 0.2. -/
def Bus : LineStyle := ⟨0.1, 0.2, false⟩

/-- `class Ferry(Line)`: line_width 0.25, opacity 0.3. -/
def Ferry : LineStyle := ⟨0.25, 0.3, false⟩

/-- `class CableCar(Line)`: line_width 0.25, opacity 0.5. -/
def CableCar : LineStyle := ⟨0.25, 0.5, false⟩

/-- `class Gondola(Line)`: line_width 0.25, opacity 0.3. -/
def Gondola : LineStyle := ⟨0.25, 0.3, false⟩

/-- `class Funicular(Line)`: line_width 0.25, opacity 0.3. -/
def Funicular : LineStyle := ⟨0.25, 0.3, false⟩

/-- `class TrolleyBus(Line)`: line_width 0.15, opacity 0.2. -/
def TrolleyBus : LineStyle := ⟨0.15, 0.2, false⟩

/-- `class Monorail(Line)`: line_width 0.4, opacity 0.5. -/
def Monorail : LineStyle := ⟨0.4, 0.5, false⟩

/-- The `_LINE_TYPES` dictionary (line.py 226-237), as an association list
from mode code to the selected class's style. -/
def LINE_TYPES : List (ℕ × LineStyle) :=
  [(0, LightRail), (1, Subway), (2, Rail), (3, Bus), (4, Ferry),
   (5, CableCar), (6, Gondola), (7, Funicular), (11, TrolleyBus),
   (12, Monorail)]

/-- Dictionary lookup in `_LINE_TYPES`. -/
def lineTypes (route_type : ℕ) : Option LineStyle :=
  LINE_TYPES.lookup route_type

/-- Model of `make_line` (line.py 239-241): `_LINE_TYPES[route_type](shape_df)`
— a missing key raises KeyError before any drawing happens. -/
def make_line (route_type : ℕ) : Except Err LineStyle :=
  match lineTypes route_type with
  | some s => .ok s
  | none => .error .keyError

/-- The offset distance `offset_curve_wrapper` passes to `offset_curve`
(line.py 100): `-self.line_width`.  It does not depend on `direction`. -/
def wrapperDistance (style : LineStyle) (direction : ℕ) : ℚ :=
  -style.line_width

/-- Model of `Line.offset_curve_wrapper` (line.py 96-101): return the path
unchanged unless the style enables offsetting, else offset it by
`-self.line_width` with the default `steps=10`. -/
def offset_curve_wrapper (style : LineStyle) (path : Path) (direction : ℕ) :
    Except Err Path :=
  if style.offset_curves then
    offset_curve path (wrapperDistance style direction) 10
  else .ok path

/-- The path `process_line` builds from its point list (line.py 71-77):
segments over `zip(points[:-1], points[1:])`. -/
def toPath (points : List Pt) : Path :=
  (points.zip points.tail).map (fun pq => ⟨pq.1, pq.2⟩)

/-- Model of `Line.process_line` (line.py 69-94): build the path, pass it
through `offset_curve_wrapper`, then take `(segment.start.real,
segment.start.imag)` for every segment of the resulting path as the vertex
list of the polyline primitive. -/
def process_line (style : LineStyle) (points : List Pt) (direction : ℕ) :
    Except Err (List Pt) :=
  match offset_curve_wrapper style (toPath points) direction with
  | .error e => .error e
  | .ok path => .ok (path.map Seg.start)

/-- A drawing element added to the SVG canvas. -/
inductive Elem where
  | group (gid : String)
  | polyline (pts : List Pt)
deriving DecidableEq, Repr

/-- The drawing surface, recording added elements in order. -/
abbrev Canvas : Type := List Elem

/-- One row of the enriched shape table, as consumed by `render_shapes`. -/
structure ShapeRow where
  shape_id : ℕ
  direction_id : ℕ
  shape_pt_sequence : ℕ
  x : ℚ
  y : ℚ
deriving DecidableEq, Repr

/-- The `map_bounds` list `[-absolute_max_x, absolute_max_x, -absolute_max_y,
absolute_max_y]` built by `MapMaker.get_map_bounds` (parse.py 67-73), with the
four entries named. -/
structure MapBounds where
  min_x : ℚ
  max_x : ℚ
  min_y : ℚ
  max_y : ℚ
deriving DecidableEq, Repr

/-- Model of `Line.render_shapes` (line.py 56-67): take the rows' `x`/`y`
values in table row order, shift by `map_bounds[0]` and `map_bounds[2]`, build
the polyline via `process_line`, and unconditionally `dwg.add(line)`. -/
def render_shapes (style : LineStyle) (map_bounds : MapBounds)
    (shape : List ShapeRow) (direction : ℕ) (canvas : Canvas) :
    Except Err Canvas :=
  let points := shape.map (fun r => (r.x, r.y))
  let shifted := points.map (fun p => (p.1 - map_bounds.min_x, p.2 - map_bounds.min_y))
  match process_line style shifted direction with
  | .error e => .error e
  | .ok line => .ok (canvas ++ [Elem.polyline line])

/-- Model of the `Rail.render` override (line.py 174-175):
`return dwg.polyline()` — it constructs a bare empty polyline and returns it
without adding anything to the drawing and without rendering any direction. -/
def Rail_render (canvas : Canvas) : Canvas × Elem :=
  (canvas, Elem.polyline [])

/-- The maximum of the absolute values of a list, as computed by
`abs(df.x).max()` in `get_map_bounds` (exact for a nonempty column; every
absolute value is nonnegative, so folding from 0 agrees with the column
maximum there). -/
def absMax (l : List ℚ) : ℚ :=
  l.foldr (fun a m => max |a| m) 0

/-- Model of `MapMaker.get_map_bounds` (parse.py 67-73). -/
def get_map_bounds (pts : List Pt) : MapBounds :=
  let absolute_max_x := absMax (pts.map Prod.fst)
  let absolute_max_y := absMax (pts.map Prod.snd)
  ⟨-absolute_max_x, absolute_max_x, -absolute_max_y, absolute_max_y⟩

/-- `_BOSTON_ORIGIN = (42.3601, -71.0589)` (parse.py 21). -/
def BOSTON_ORIGIN : ℚ × ℚ := (42.3601, -71.0589)

/-- `_LAT_LONG_SCALE = 1000` (parse.py 22). -/
def LAT_LONG_SCALE : ℚ := 1000

/-- Model of `MapMaker._lat_long_to_xy` (parse.py 131-135):
`x = (long - origin_lon) * scale`, `y = -(lat - origin_lat) * scale`. -/
def lat_long_to_xy (lat long : ℚ) : ℚ × ℚ :=
  ((long - BOSTON_ORIGIN.2) * LAT_LONG_SCALE,
   -(lat - BOSTON_ORIGIN.1) * LAT_LONG_SCALE)

/-- Stable insertion of a row into a list sorted by `shape_pt_sequence`. -/
def insertBySeq (r : ShapeRow) : List ShapeRow → List ShapeRow
  | [] => [r]
  | s :: t =>
    if r.shape_pt_sequence ≤ s.shape_pt_sequence then r :: s :: t
    else s :: insertBySeq r t

/-- Modelled from the spec: "Order them by sequence index ascending".  No such
sort exists anywhere in src/; this definition exists only to compare the
spec-mandated ordering with what `render_shapes` actually does. -/
def sortBySequence (rows : List ShapeRow) : List ShapeRow :=
  rows.foldr insertBySeq []

/-! ## Helper lemmas -/

/-- `toPath` on two or more points peels off the leading segment. -/
theorem toPath_cons_cons (a b : Pt) (t : List Pt) :
    toPath (a :: b :: t) = ⟨a, b⟩ :: toPath (b :: t) := rfl

/-- The segment start points of the path built from a point list are exactly
the points without the last one. -/
theorem toPath_map_start (pts : List Pt) :
    (toPath pts).map Seg.start = pts.dropLast := by
  induction pts with
  | nil => rfl
  | cons a t ih =>
    cases t with
    | nil => rfl
    | cons b t' =>
      rw [toPath_cons_cons, List.map_cons, ih]
      rfl

/-- `connectDots` on two or more samples peels off the leading connector. -/
theorem connectDots_cons_cons (a b : Seg) (t : List Seg) :
    connectDots (a :: b :: t) = ⟨a.stop, b.stop⟩ :: connectDots (b :: t) := rfl

/-- The start points of the connected dots are the end points of all samples
but the last. -/
theorem connectDots_map_start (l : List Seg) :
    (connectDots l).map Seg.start = l.dropLast.map Seg.stop := by
  induction l with
  | nil => rfl
  | cons a t ih =>
    cases t with
    | nil => rfl
    | cons b t' =>
      rw [connectDots_cons_cons, List.map_cons, ih]
      rfl

/-- A nondegenerate segment contributes at least one displaced sample when
`steps ≥ 1` (the `k = 0` iteration is not skipped). -/
theorem segSamples_ne_nil (d : ℚ) (steps : ℕ) (s : Seg)
    (hst : 1 ≤ steps) (hnd : s.start ≠ s.stop) :
    segSamples d steps s ≠ [] := by
  intro hnil
  rw [segSamples, List.filterMap_eq_nil_iff] at hnil
  have h0 := hnil 0 (List.mem_range.mpr hst)
  rw [if_neg hnd] at h0
  exact Option.some_ne_none _ h0

/-- The sample list is nonempty when the path has a nondegenerate segment and
`steps ≥ 1`. -/
theorem offsetNls_ne_nil (path : Path) (d : ℚ) (steps : ℕ)
    (hnd : ∃ s ∈ path, s.start ≠ s.stop) (hst : 1 ≤ steps) :
    offsetNls path d steps ≠ [] := by
  intro hnil
  obtain ⟨s, hs, hne⟩ := hnd
  rw [offsetNls, List.flatMap_eq_nil_iff] at hnil
  exact segSamples_ne_nil d steps s hst hne (hnil s hs)

/-- With `steps = 0` no iteration of the inner loop runs, so no samples are
produced. -/
theorem offsetNls_steps_zero (path : Path) (d : ℚ) :
    offsetNls path d 0 = [] := by
  simp [offsetNls, segSamples]

/-- `offset_curve` on the empty path: the closedness check raises. -/
theorem offset_curve_nil (d : ℚ) (steps : ℕ) :
    offset_curve [] d steps = .error .assertionError := rfl

/-- `offset_curve` on a nonempty open path reduces to connecting the dots. -/
theorem offset_curve_open (path : Path) (d : ℚ) (steps : ℕ)
    (hcl : isclosed path = .ok false) :
    offset_curve path d steps = .ok (connectDots (offsetNls path d steps)) := by
  rw [offset_curve, hcl]

/-- `offset_curve` on a closed path with at least one sample appends the
closing connector `Line(nls[-1].end, nls[0].end)`. -/
theorem offset_curve_closed (path : Path) (d : ℚ) (steps : ℕ)
    (hcl : isclosed path = .ok true)
    (hnn : offsetNls path d steps ≠ []) :
    offset_curve path d steps =
      .ok (connectDots (offsetNls path d steps) ++
        [⟨((offsetNls path d steps).getLast hnn).stop,
          ((offsetNls path d steps).head hnn).stop⟩]) := by
  rw [offset_curve, hcl, List.getLast?_eq_getLast _ hnn, List.head?_eq_head hnn]

/-- `offset_curve` on a closed path with no samples raises on `nls[-1]`. -/
theorem offset_curve_closed_no_samples (path : Path) (d : ℚ) (steps : ℕ)
    (hcl : isclosed path = .ok true)
    (hnil : offsetNls path d steps = []) :
    offset_curve path d steps = .error .indexError := by
  rw [offset_curve, hcl, hnil]
  rfl

/-- `process_line` with offsetting disabled emits the start point of every
consecutive-pair segment: all the input points except the last. -/
theorem process_line_no_offset (style : LineStyle) (points : List Pt)
    (direction : ℕ) (hoff : style.offset_curves = false) :
    process_line style points direction = .ok points.dropLast := by
  rw [process_line, offset_curve_wrapper, hoff]
  simp [toPath_map_start]

/-- Every absolute value occurring in the list is bounded by `absMax`. -/
theorem le_absMax (l : List ℚ) (q : ℚ) (hq : q ∈ l) : |q| ≤ absMax l := by
  induction l with
  | nil => cases hq
  | cons a t ih =>
    rcases List.mem_cons.mp hq with h | h
    · subst h; exact le_max_left _ _
    · exact le_trans (ih h) (le_max_right _ _)

/-- On a nonempty list, `absMax` is attained: it equals one of the absolute
values. -/
theorem absMax_mem (l : List ℚ) (h : l ≠ []) : ∃ q ∈ l, absMax l = |q| := by
  induction l with
  | nil => exact absurd rfl h
  | cons a t ih =>
    cases t with
    | nil =>
      refine ⟨a, List.mem_singleton_self a, ?_⟩
      show max |a| 0 = |a|
      exact max_eq_left (abs_nonneg a)
    | cons b t' =>
      obtain ⟨q, hq, heq⟩ := ih (by simp)
      rcases max_choice |a| (absMax (b :: t')) with hm | hm
      · exact ⟨a, List.mem_cons_self a _, hm⟩
      · refine ⟨q, List.mem_cons_of_mem a hq, ?_⟩
        show max |a| (absMax (b :: t')) = |q|
        rw [hm, heq]

/-- A key absent from the key column of an association list looks up to
`none`. -/
theorem lookup_eq_none_of_not_mem {β : Type} (l : List (ℕ × β)) (c : ℕ)
    (h : c ∉ l.map Prod.fst) : l.lookup c = none := by
  induction l with
  | nil => rfl
  | cons kv t ih =>
    obtain ⟨k, v⟩ := kv
    simp only [List.map_cons, List.mem_cons] at h
    push_neg at h
    have hbeq : (c == k) = false := beq_eq_false_iff_ne.mpr h.1
    simp [List.lookup, hbeq, ih h.2]

/-- The last element of a cons whose tail ends in a singleton append. -/
theorem getLast?_cons_append_one {α : Type} (x a : α) (l : List α) :
    (x :: (l ++ [a])).getLast? = some a := by
  rw [← List.cons_append, List.getLast?_append]
  rfl

/-- Appending the closing connector `Line(nls[-1].end, nls[0].end)` to the
connected dots yields a list whose last segment ends where its first segment
starts. -/
theorem connectDots_closing_ends (nls : List Seg) (hnn : nls ≠ []) :
    (connectDots nls ++
      [(⟨(nls.getLast hnn).stop, (nls.head hnn).stop⟩ : Seg)]).getLast?.map
        Seg.stop =
    (connectDots nls ++
      [(⟨(nls.getLast hnn).stop, (nls.head hnn).stop⟩ : Seg)]).head?.map
        Seg.start := by
  match nls, hnn with
  | [n0], _ => simp [connectDots]
  | n0 :: n1 :: rest, _ =>
    simp [connectDots_cons_cons, getLast?_cons_append_one]

/-- Mapping a function over a list is mapping over its initial part and its
last element. -/
theorem map_dropLast_append_getLast {α β : Type} (f : α → β) (l : List α)
    (h : l ≠ []) : l.dropLast.map f ++ [f (l.getLast h)] = l.map f := by
  conv_rhs => rw [← List.dropLast_append_getLast h]
  rw [List.map_append]
  rfl

/-! ## Claims -/

/-- C1: corrected.  `offset_curve_wrapper` passes the same offset distance,
`-line_width`, to the Curve Offset Engine for both directions — line.py 100
ignores the `direction` argument — so the two directions of a route whose
style enables offsetting receive equal, not opposite-signed, distances, and
the wrapper's output is identical for direction 0 and direction 1. -/
theorem C1_same_distance_both_directions (style : LineStyle) (path : Path)
    (d1 d2 : ℕ) (hoff : style.offset_curves = true) :
    wrapperDistance style d1 = -style.line_width ∧
    wrapperDistance style d1 = wrapperDistance style d2 ∧
    offset_curve_wrapper style path d1 =
      offset_curve path (-style.line_width) 10 ∧
    offset_curve_wrapper style path d1 = offset_curve_wrapper style path d2 := by
  refine ⟨rfl, rfl, ?_, rfl⟩
  simp [offset_curve_wrapper, wrapperDistance, hoff]

/-- Witness for C1: the amended statement at the LightRail style, a concrete
one-segment path and directions 0 and 1. -/
theorem C1_witness :
    wrapperDistance LightRail 0 = -LightRail.line_width ∧
    wrapperDistance LightRail 0 = wrapperDistance LightRail 1 ∧
    offset_curve_wrapper LightRail [⟨(0, 0), (4, 0)⟩] 0 =
      offset_curve [⟨(0, 0), (4, 0)⟩] (-LightRail.line_width) 10 ∧
    offset_curve_wrapper LightRail [⟨(0, 0), (4, 0)⟩] 0 =
      offset_curve_wrapper LightRail [⟨(0, 0), (4, 0)⟩] 1 :=
  C1_same_distance_both_directions LightRail [⟨(0, 0), (4, 0)⟩] 0 1 rfl

/-- C1 counterexample: for the LightRail style (offsetting enabled) the
distance passed for direction 0 equals the one passed for direction 1 and is
not its negation, and the wrapped offset of a concrete segment is identical
for the two directions. -/
theorem C1_counterexample :
    wrapperDistance LightRail 0 = wrapperDistance LightRail 1 ∧
    wrapperDistance LightRail 0 ≠ -(wrapperDistance LightRail 1) ∧
    offset_curve_wrapper LightRail [⟨(0, 0), (4, 0)⟩] 0 =
      offset_curve_wrapper LightRail [⟨(0, 0), (4, 0)⟩] 1 :=
  ⟨rfl, by norm_num [wrapperDistance, LightRail], rfl⟩

/-- C2: corrected.  `render_shapes` consumes the rows of the shape table in
their source order — no sort by `shape_pt_sequence` exists anywhere in the
renderer — so the emitted polyline's vertex order follows the row order of
the table, not the sequence index. -/
theorem C2_row_order (style : LineStyle) (b : MapBounds) (rows : List ShapeRow)
    (direction : ℕ) (canvas : Canvas) (hoff : style.offset_curves = false) :
    render_shapes style b rows direction canvas =
      .ok (canvas ++ [Elem.polyline
        ((rows.map (fun r => (r.x - b.min_x, r.y - b.min_y))).dropLast)]) := by
  rw [render_shapes, process_line_no_offset style _ direction hoff]
  simp [List.map_map]
  rfl

/-- Witness for C2: the amended statement at the Bus style and two concrete
rows given in reverse sequence order; the emitted vertex is the first row's
point. -/
theorem C2_witness :
    render_shapes Bus ⟨0, 4, 0, 4⟩ [⟨1, 0, 3, 5, 6⟩, ⟨1, 0, 1, 7, 8⟩] 0 [] =
      .ok [Elem.polyline [(5, 6)]] := by
  have h := C2_row_order Bus ⟨0, 4, 0, 4⟩ [⟨1, 0, 3, 5, 6⟩, ⟨1, 0, 1, 7, 8⟩] 0 [] rfl
  simpa using h

/-- C2 counterexample: three rows of one shape listed with sequence indices
3, 1, 2.  The emitted polyline follows the table row order and differs from
what the same rows emit after sorting by sequence index, so the output is not
independent of source-row order. -/
theorem C2_counterexample :
    render_shapes Bus ⟨0, 4, 0, 4⟩
      [⟨1, 0, 3, 0, 0⟩, ⟨1, 0, 1, 1, 0⟩, ⟨1, 0, 2, 2, 0⟩] 0 [] =
      .ok [Elem.polyline [(0, 0), (1, 0)]] ∧
    render_shapes Bus ⟨0, 4, 0, 4⟩
      (sortBySequence [⟨1, 0, 3, 0, 0⟩, ⟨1, 0, 1, 1, 0⟩, ⟨1, 0, 2, 2, 0⟩]) 0 [] =
      .ok [Elem.polyline [(1, 0), (2, 0)]] ∧
    [Elem.polyline [((0 : ℚ), (0 : ℚ)), (1, 0)]] ≠
      [Elem.polyline [(1, 0), (2, 0)]] := by
  refine ⟨?_, ?_, by decide⟩
  · rw [show render_shapes Bus ⟨0, 4, 0, 4⟩
        [⟨1, 0, 3, 0, 0⟩, ⟨1, 0, 1, 1, 0⟩, ⟨1, 0, 2, 2, 0⟩] 0 [] =
        match process_line Bus
          ([((0:ℚ),(0:ℚ)), (1, 0), (2, 0)].map
            (fun p => (p.1 - 0, p.2 - 0))) 0 with
        | .error e => .error e
        | .ok line => .ok ([Elem.polyline line] : Canvas) from rfl,
      process_line_no_offset Bus _ 0 rfl]
    norm_num
  · rw [show sortBySequence [⟨1, 0, 3, 0, 0⟩, ⟨1, 0, 1, 1, 0⟩, ⟨1, 0, 2, 2, 0⟩] =
        ([⟨1, 0, 1, 1, 0⟩, ⟨1, 0, 2, 2, 0⟩, ⟨1, 0, 3, 0, 0⟩] : List ShapeRow)
        from rfl,
      show render_shapes Bus ⟨0, 4, 0, 4⟩
        [⟨1, 0, 1, 1, 0⟩, ⟨1, 0, 2, 2, 0⟩, ⟨1, 0, 3, 0, 0⟩] 0 [] =
        match process_line Bus
          ([((1:ℚ),(0:ℚ)), (2, 0), (0, 0)].map
            (fun p => (p.1 - 0, p.2 - 0))) 0 with
        | .error e => .error e
        | .ok line => .ok ([Elem.polyline line] : Canvas) from rfl,
      process_line_no_offset Bus _ 0 rfl]
    norm_num

/-- C3: corrected.  `offset_curve` on an input with fewer than 2 points (an
empty segment list) raises — the closedness check fails its nonemptiness
assertion — instead of returning the input unchanged; with `steps = 0` the
output is the empty polyline only for a non-closed path, while a closed path
raises IndexError on `nls[-1]`. -/
theorem C3_degenerate_and_zero_steps :
    (∀ (d : ℚ) (steps : ℕ),
      offset_curve [] d steps = .error .assertionError) ∧
    (∀ (path : Path) (d : ℚ), isclosed path = .ok false →
      offset_curve path d 0 = .ok []) ∧
    (∀ (path : Path) (d : ℚ), isclosed path = .ok true →
      offset_curve path d 0 = .error .indexError) := by
  refine ⟨fun d steps => offset_curve_nil d steps,
    fun path d hcl => ?_, fun path d hcl => ?_⟩
  · rw [offset_curve_open path d 0 hcl, offsetNls_steps_zero]
    rfl
  · exact offset_curve_closed_no_samples path d 0 hcl (offsetNls_steps_zero path d)

/-- Witness for C3: the amended statement at the empty path, a concrete open
segment with `steps = 0`, and a concrete closed two-segment path with
`steps = 0`. -/
theorem C3_witness :
    offset_curve ([] : Path) (1 : ℚ) 7 = .error .assertionError ∧
    offset_curve [⟨(0, 0), (2, 0)⟩] (1 : ℚ) 0 = .ok [] ∧
    offset_curve [⟨(0, 0), (1, 0)⟩, ⟨(1, 0), (0, 0)⟩] (1 : ℚ) 0 =
      .error .indexError :=
  ⟨C3_degenerate_and_zero_steps.1 1 7,
   C3_degenerate_and_zero_steps.2.1 [⟨(0, 0), (2, 0)⟩] 1 rfl,
   C3_degenerate_and_zero_steps.2.2 [⟨(0, 0), (1, 0)⟩, ⟨(1, 0), (0, 0)⟩] 1 rfl⟩

/-- C3 counterexample: the empty path (fewer than 2 points) raises rather
than being returned unchanged, and `steps = 0` on a concrete closed square
raises IndexError rather than yielding the empty polyline without error. -/
theorem C3_counterexample :
    offset_curve ([] : Path) 1 10 = .error .assertionError ∧
    offset_curve [⟨(0, 0), (1, 0)⟩, ⟨(1, 0), (1, 1)⟩, ⟨(1, 1), (0, 1)⟩,
      ⟨(0, 1), (0, 0)⟩] 1 0 = .error .indexError :=
  ⟨rfl, rfl⟩

/-- C4: corrected.  A polyline with fewer than 2 points is not skipped by the
renderer: with offsetting disabled `render_shapes` still adds a polyline
primitive (with an empty vertex list) to the canvas, and with offsetting
enabled the offset engine raises on the empty segment list, propagating an
error to the caller. -/
theorem C4_no_skip :
    (∀ (style : LineStyle) (b : MapBounds) (rows : List ShapeRow)
      (direction : ℕ) (canvas : Canvas), style.offset_curves = false →
      rows.length < 2 →
      render_shapes style b rows direction canvas =
        .ok (canvas ++ [Elem.polyline []])) ∧
    (∀ (style : LineStyle) (b : MapBounds) (rows : List ShapeRow)
      (direction : ℕ) (canvas : Canvas), style.offset_curves = true →
      rows.length < 2 →
      render_shapes style b rows direction canvas = .error .assertionError) := by
  constructor
  · intro style b rows direction canvas hoff hlen
    rw [render_shapes, process_line_no_offset style _ direction hoff]
    rcases rows with _ | ⟨r, _ | ⟨r2, t⟩⟩
    · rfl
    · rfl
    · exact absurd hlen (by simp)
  · intro style b rows direction canvas hoff hlen
    rcases rows with _ | ⟨r, _ | ⟨r2, t⟩⟩
    · rw [render_shapes, process_line, offset_curve_wrapper, hoff]
      rfl
    · rw [render_shapes, process_line, offset_curve_wrapper, hoff]
      rfl
    · exact absurd hlen (by simp)

/-- Witness for C4: the amended statement at a single concrete row, once with
the Bus style (primitive with empty vertex list added) and once with the
LightRail style (error raised). -/
theorem C4_witness :
    render_shapes Bus ⟨0, 4, 0, 4⟩ [⟨1, 0, 1, 5, 5⟩] 0 [] =
      .ok ([] ++ [Elem.polyline []]) ∧
    render_shapes LightRail ⟨0, 4, 0, 4⟩ [⟨1, 0, 1, 5, 5⟩] 0 [] =
      .error .assertionError :=
  ⟨C4_no_skip.1 Bus ⟨0, 4, 0, 4⟩ [⟨1, 0, 1, 5, 5⟩] 0 [] rfl (by decide),
   C4_no_skip.2 LightRail ⟨0, 4, 0, 4⟩ [⟨1, 0, 1, 5, 5⟩] 0 [] rfl (by decide)⟩

/-- C4 counterexample: one concrete row (a one-point polyline).  With the Bus
style a polyline primitive is added to the canvas (not skipped); with the
LightRail style an error is raised to the caller. -/
theorem C4_counterexample :
    render_shapes Bus ⟨0, 4, 0, 4⟩ [⟨1, 0, 1, 5, 5⟩] 0 [] =
      .ok [Elem.polyline []] ∧
    render_shapes LightRail ⟨0, 4, 0, 4⟩ [⟨1, 0, 1, 5, 5⟩] 0 [] =
      .error .assertionError :=
  ⟨rfl, rfl⟩

/-- C5: confirmed.  On a closed input path (the `isclosed` check succeeds
with `true`: first point equals last point along a continuous path) with at
least one nondegenerate segment and `steps ≥ 1`, `offset_curve` succeeds and
its output polyline is closed: the last output segment ends exactly where the
first output segment starts. -/
theorem C5_closed_input_closed_output (path : Path) (d : ℚ) (steps : ℕ)
    (hcl : isclosed path = .ok true)
    (hnd : ∃ s ∈ path, s.start ≠ s.stop)
    (hst : 1 ≤ steps) :
    ∃ out, offset_curve path d steps = .ok out ∧ out ≠ [] ∧
      out.getLast?.map Seg.stop = out.head?.map Seg.start := by
  have hnn := offsetNls_ne_nil path d steps hnd hst
  exact ⟨_, offset_curve_closed path d steps hcl hnn, by simp,
    connectDots_closing_ends _ hnn⟩

/-- Witness for C5: the theorem applied to a concrete closed two-segment path
with distance 1 and one step. -/
theorem C5_witness :
    ∃ out, offset_curve [⟨(0, 0), (1, 0)⟩, ⟨(1, 0), (0, 0)⟩] (1 : ℚ) 1 =
      .ok out ∧ out ≠ [] ∧
      out.getLast?.map Seg.stop = out.head?.map Seg.start :=
  C5_closed_input_closed_output [⟨(0, 0), (1, 0)⟩, ⟨(1, 0), (0, 0)⟩] 1 1
    rfl (by decide) (by decide)

/-- C6: confirmed.  For every nonempty point list the computed bounds are
symmetric around zero — `min_x = -max_x` and `min_y = -max_y` — where
`max_x`/`max_y` are the maximum absolute coordinate values observed over the
points. -/
theorem C6_bounds_symmetric (pts : List Pt) (h : pts ≠ []) :
    (get_map_bounds pts).min_x = -(get_map_bounds pts).max_x ∧
    (get_map_bounds pts).min_y = -(get_map_bounds pts).max_y ∧
    (∀ p ∈ pts, |p.1| ≤ (get_map_bounds pts).max_x ∧
      |p.2| ≤ (get_map_bounds pts).max_y) ∧
    (∃ p ∈ pts, (get_map_bounds pts).max_x = |p.1|) ∧
    (∃ p ∈ pts, (get_map_bounds pts).max_y = |p.2|) := by
  refine ⟨rfl, rfl, ?_, ?_, ?_⟩
  · intro p hp
    exact ⟨le_absMax _ _ (List.mem_map_of_mem _ hp),
      le_absMax _ _ (List.mem_map_of_mem _ hp)⟩
  · obtain ⟨q, hq, heq⟩ := absMax_mem (pts.map Prod.fst) (by simpa using h)
    obtain ⟨p, hp, rfl⟩ := List.mem_map.mp hq
    exact ⟨p, hp, heq⟩
  · obtain ⟨q, hq, heq⟩ := absMax_mem (pts.map Prod.snd) (by simpa using h)
    obtain ⟨p, hp, rfl⟩ := List.mem_map.mp hq
    exact ⟨p, hp, heq⟩

/-- Witness for C6: the theorem applied to a concrete one-point list. -/
theorem C6_witness :
    (get_map_bounds [((3 : ℚ), (-4 : ℚ))]).min_x =
      -(get_map_bounds [((3 : ℚ), (-4 : ℚ))]).max_x ∧
    (get_map_bounds [((3 : ℚ), (-4 : ℚ))]).min_y =
      -(get_map_bounds [((3 : ℚ), (-4 : ℚ))]).max_y ∧
    (∀ p ∈ [((3 : ℚ), (-4 : ℚ))],
      |p.1| ≤ (get_map_bounds [((3 : ℚ), (-4 : ℚ))]).max_x ∧
      |p.2| ≤ (get_map_bounds [((3 : ℚ), (-4 : ℚ))]).max_y) ∧
    (∃ p ∈ [((3 : ℚ), (-4 : ℚ))],
      (get_map_bounds [((3 : ℚ), (-4 : ℚ))]).max_x = |p.1|) ∧
    (∃ p ∈ [((3 : ℚ), (-4 : ℚ))],
      (get_map_bounds [((3 : ℚ), (-4 : ℚ))]).max_y = |p.2|) :=
  C6_bounds_symmetric [((3 : ℚ), (-4 : ℚ))] (by simp)

/-- C7: confirmed.  The projection returns exactly
`x = (lon - origin_lon) * scale` and `y = -(lat - origin_lat) * scale` for the
fixed Boston origin and scale 1000; it is strictly increasing in longitude,
strictly decreasing in latitude, and deterministic. -/
theorem C7_projection (lat long lat' long' : ℚ)
    (hlong : long < long') (hlat : lat < lat') :
    lat_long_to_xy lat long =
      ((long - (-71.0589)) * 1000, -(lat - 42.3601) * 1000) ∧
    (lat_long_to_xy lat long).1 < (lat_long_to_xy lat long').1 ∧
    (lat_long_to_xy lat' long).2 < (lat_long_to_xy lat long).2 ∧
    lat_long_to_xy lat long = lat_long_to_xy lat long := by
  have h1000 : (0 : ℚ) < LAT_LONG_SCALE := by norm_num [LAT_LONG_SCALE]
  refine ⟨rfl, ?_, ?_, rfl⟩
  · show (long - BOSTON_ORIGIN.2) * LAT_LONG_SCALE <
      (long' - BOSTON_ORIGIN.2) * LAT_LONG_SCALE
    exact mul_lt_mul_of_pos_right (sub_lt_sub_right hlong _) h1000
  · show -(lat' - BOSTON_ORIGIN.1) * LAT_LONG_SCALE <
      -(lat - BOSTON_ORIGIN.1) * LAT_LONG_SCALE
    exact mul_lt_mul_of_pos_right (neg_lt_neg (sub_lt_sub_right hlat _)) h1000

/-- Witness for C7: the theorem applied to concrete coordinates. -/
theorem C7_witness :
    lat_long_to_xy 1 2 = ((2 - (-71.0589)) * 1000, -(1 - 42.3601) * 1000) ∧
    (lat_long_to_xy 1 2).1 < (lat_long_to_xy 1 4).1 ∧
    (lat_long_to_xy 3 2).2 < (lat_long_to_xy 1 2).2 ∧
    lat_long_to_xy 1 2 = lat_long_to_xy 1 2 :=
  C7_projection 1 2 3 4 (by norm_num) (by norm_num)

/-- C8: confirmed.  A mode code with no entry in `_LINE_TYPES` (such as 99)
makes `make_line` raise KeyError — before any style exists to draw with —
while every mode code in the table selects exactly the one style recorded for
it. -/
theorem C8_style_dispatch :
    make_line 99 = .error .keyError ∧
    (∀ c : ℕ, c ∉ LINE_TYPES.map Prod.fst → make_line c = .error .keyError) ∧
    LINE_TYPES.map Prod.fst = [0, 1, 2, 3, 4, 5, 6, 7, 11, 12] ∧
    make_line 0 = .ok LightRail ∧ make_line 1 = .ok Subway ∧
    make_line 2 = .ok Rail ∧ make_line 3 = .ok Bus ∧
    make_line 4 = .ok Ferry ∧ make_line 5 = .ok CableCar ∧
    make_line 6 = .ok Gondola ∧ make_line 7 = .ok Funicular ∧
    make_line 11 = .ok TrolleyBus ∧ make_line 12 = .ok Monorail := by
  refine ⟨rfl, ?_, rfl, rfl, rfl, rfl, rfl, rfl, rfl, rfl, rfl, rfl, rfl⟩
  intro c hc
  rw [make_line, lineTypes, lookup_eq_none_of_not_mem LINE_TYPES c hc]

/-- Witness for C8: the theorem's universally quantified part applied to the
concrete unknown mode code 99. -/
theorem C8_witness : make_line 99 = .error .keyError :=
  C8_style_dispatch.2.1 99 (by decide)

/-- C9: corrected.  Emitted vertices are the start points of the resulting
path's segments: without offsetting they are exactly the input points without
the last one; with offsetting on an open (non-closed) path they are the end
points of all displaced samples except the last; but on a closed path the
closing segment starts at the last displaced sample's end, so every sample
end point — the final one included — is emitted. -/
theorem C9_emitted_vertices :
    (∀ (style : LineStyle) (points : List Pt) (direction : ℕ),
      style.offset_curves = false →
      process_line style points direction = .ok points.dropLast) ∧
    (∀ (path : Path) (d : ℚ) (steps : ℕ), isclosed path = .ok false →
      offset_curve path d steps =
        .ok (connectDots (offsetNls path d steps)) ∧
      (connectDots (offsetNls path d steps)).map Seg.start =
        (offsetNls path d steps).dropLast.map Seg.stop) ∧
    (∀ (path : Path) (d : ℚ) (steps : ℕ), isclosed path = .ok true →
      ∀ (hnn : offsetNls path d steps ≠ []),
      ∃ out, offset_curve path d steps = .ok out ∧
        out.map Seg.start = (offsetNls path d steps).map Seg.stop) := by
  refine ⟨process_line_no_offset, fun path d steps hcl =>
    ⟨offset_curve_open path d steps hcl, connectDots_map_start _⟩,
    fun path d steps hcl hnn => ?_⟩
  refine ⟨_, offset_curve_closed path d steps hcl hnn, ?_⟩
  rw [List.map_append, connectDots_map_start]
  exact map_dropLast_append_getLast Seg.stop _ hnn

/-- Witness for C9: the amended statement's first two parts applied to
concrete inputs (three collinear points with the Bus style; a single open
segment with two steps). -/
theorem C9_witness :
    process_line Bus [((0 : ℚ), (0 : ℚ)), (1, 0), (2, 0)] 0 =
      .ok [(0, 0), (1, 0)] ∧
    offset_curve [⟨(0, 0), (4, 0)⟩] (1 : ℚ) 2 =
      .ok (connectDots (offsetNls [⟨(0, 0), (4, 0)⟩] 1 2)) :=
  ⟨C9_emitted_vertices.1 Bus [((0 : ℚ), (0 : ℚ)), (1, 0), (2, 0)] 0 rfl,
   (C9_emitted_vertices.2.1 [⟨(0, 0), (4, 0)⟩] 1 2 rfl).1⟩

/-- C9 counterexample: the concrete closed square
`[(0,0), (4,0), (4,4), (0,4), (0,0)]` processed with the LightRail style
(offsetting enabled, 4 nondegenerate segments × 10 steps = 40 samples).  The
emitted polyline's last vertex is exactly the end point of the final
displaced sample, so with offsetting enabled the final displaced sample does
appear as an emitted vertex. -/
theorem C9_counterexample :
    (process_line LightRail
        [((0 : ℚ), (0 : ℚ)), (4, 0), (4, 4), (0, 4), (0, 0)] 0).map
        (fun verts => verts.getLast?) =
      .ok ((offsetNls
        (toPath [((0 : ℚ), (0 : ℚ)), (4, 0), (4, 4), (0, 4), (0, 0)])
        (wrapperDistance LightRail 0) 10).getLast?.map Seg.stop) ∧
    (offsetNls (toPath [((0 : ℚ), (0 : ℚ)), (4, 0), (4, 4), (0, 4), (0, 0)])
      (wrapperDistance LightRail 0) 10).length = 40 :=
  ⟨rfl, rfl⟩

/-- C10: confirmed.  Mode code 2 (commuter rail) selects the Rail class,
whose `render` override returns a bare empty polyline without adding it to
the drawing: the canvas is left unchanged and no group or primitive for the
route is produced. -/
theorem C10_rail_render_no_op (canvas : Canvas) :
    make_line 2 = .ok Rail ∧
    (Rail_render canvas).1 = canvas ∧
    (Rail_render canvas).2 = Elem.polyline [] :=
  ⟨rfl, rfl, rfl⟩

end MbtaMap
